import Mathlib

/-!
Shallow embedding of the stream lifecycle supervisor of the
thabir-camera-detection repository.

The supervisor is the `FFmpegManager` class (src/unnamed/part_001, first
document: the current revision, with OS-liveness probes, validation-gated
auto-restart and graceful stop), together with the periodic reconciler
`StreamMonitor.checkAllStreams` (src/services/StreamMonitor.js).

Conventions of the embedding:
* the JS `Map<streamName, processInfo>` becomes an association list with
  JS-`Map` semantics (`tableGet` / `tableSet` / `tableDelete`);
* `process.pid` (which can be `undefined` when the spawn failed) becomes
  `Option Nat`; the JS truthiness test `if (pid)` becomes `pidTruthy`;
* the OS-level signal-0 probe `process.kill(pid, 0)` becomes an oracle
  `alive : Nat → Bool` (the probe throws exactly when `alive pid = false`);
* the Mongo collection of `Camera` documents becomes a list of
  `CameraRecord`s; `updateOne` / `findOne` update or return the first match;
* asynchronous callbacks are sequenced in the order the timers fire
  (2 s pid check, 15 s fallback resolution, 17 s validation callback),
  matching the single-threaded event-loop execution of the source.
-/

namespace Thabir

/-- MediaMTX base URLs, from config.js (`getPublicBase` / `getPushBase`). -/
structure Config where
  publicBase : String
  pushBase : String
deriving Repr, DecidableEq

/-- Translation of `getPublicUrl` (part_001 lines 452-454):
the public URL is `publicBase/streamName`, a pure function of the name. -/
def getPublicUrl (cfg : Config) (streamName : String) : String :=
  cfg.publicBase ++ "/" ++ streamName

/-- Translation of the `processInfo` record built in `startStream`
(part_001 lines 81-88), together with the `killed` flag of the child
process object used by `stopStream`. -/
structure ProcessInfo where
  pid : Option Nat
  killed : Bool
  rtspSource : String
  startTime : Nat
  restartCount : Nat
  isValidated : Bool
deriving Repr, DecidableEq

/-- JS truthiness of `process.pid` (`undefined` and `0` are falsy). -/
def pidTruthy : Option Nat → Bool
  | some p => p != 0
  | none => false

/-- The live-job table `this.processes : Map<streamName, processInfo>`. -/
abbrev ProcTable := List (String × ProcessInfo)

/-- Lookup with `Map.get` semantics: first (and, for a real `Map`, only)
entry with the given key. -/
def tableGet : ProcTable → String → Option ProcessInfo
  | [], _ => none
  | (k, v) :: rest, n => if k = n then some v else tableGet rest n

/-- Insertion with `Map.set` semantics: replace an existing entry in place,
otherwise append. -/
def tableSet : ProcTable → String → ProcessInfo → ProcTable
  | [], n, v => [(n, v)]
  | (k, w) :: rest, n, v =>
    if k = n then (n, v) :: rest else (k, w) :: tableSet rest n v

/-- Deletion with `Map.delete` semantics (for a table respecting the `Map`
key-uniqueness invariant this removes the one entry with the key). -/
def tableDelete : ProcTable → String → ProcTable
  | [], _ => []
  | (k, v) :: rest, n =>
    if k = n then tableDelete rest n else (k, v) :: tableDelete rest n

/-- A real JS `Map` never holds two entries with the same key; states coming
from the source maintain this invariant. -/
def keysNodup (t : ProcTable) : Prop := (t.map Prod.fst).Nodup

/-- Number of table entries for one stream name. -/
def countName (t : ProcTable) (n : String) : Nat :=
  (t.filter (fun kv => kv.1 == n)).length

/-- The mutable state of the `FFmpegManager` singleton:
`this.processes` and `this.isShuttingDown` (part_001 lines 8-11). -/
structure ManagerState where
  processes : ProcTable
  isShuttingDown : Bool
deriving Repr, DecidableEq

/-- A persisted `Camera` document, restricted to the fields the supervisor
reads and writes. -/
structure CameraRecord where
  streamName : String
  rtspUrl : String
  active : Bool
  streaming : Bool
  processId : Option Nat
  lastChecked : Nat
deriving Repr, DecidableEq

/-- The camera collection. -/
abbrev Registry := List CameraRecord

/-- `Camera.findOne({streamName})`: first document with the given name. -/
def regFind : Registry → String → Option CameraRecord
  | [], _ => none
  | c :: rest, n => if c.streamName = n then some c else regFind rest n

/-- `Camera.updateOne({streamName}, fields)`: rewrite the first document
with the given name. -/
def regUpdateOne : Registry → String → (CameraRecord → CameraRecord) → Registry
  | [], _, _ => []
  | c :: rest, n, f =>
    if c.streamName = n then f c :: rest else c :: regUpdateOne rest n f

/-- `Camera.findOne({streamName, active: true})` (part_001 line 168). -/
def regFindActive (reg : Registry) (n : String) : Option CameraRecord :=
  reg.find? (fun c => c.streamName == n && c.active)

/-- The registry write `{streaming: false, processId: null, lastChecked: now}`
issued by the exit handler and by `stopStream`. -/
def markNotStreaming (reg : Registry) (n : String) (now : Nat) : Registry :=
  regUpdateOne reg n
    (fun c => { c with streaming := false, processId := none, lastChecked := now })

/-!  Liveness queries (part_001 lines 459-495). -/

/-- Translation of `isStreamRunning` (part_001 lines 459-476): look the name
up; when a pid is recorded (and truthy) probe it with signal 0; a failing
probe throws, which deletes the entry and returns `false`; a missing pid
skips the probe and falls through to the final `return false`. -/
def isStreamRunning (alive : Nat → Bool) (st : ManagerState) (name : String) :
    Bool × ManagerState :=
  match tableGet st.processes name with
  | none => (false, st)
  | some info =>
    match info.pid with
    | some p =>
      if p != 0 then
        if alive p then (true, st)
        else (false, { st with processes := tableDelete st.processes name })
      else (false, st)
    | none => (false, st)

/-- The per-entry survival test of the `getActiveStreams` cleanup loop
(part_001 lines 483-492): an entry is removed exactly when its pid is truthy
and the signal-0 probe throws; an entry without a (truthy) pid is kept. -/
def entryKept (alive : Nat → Bool) (info : ProcessInfo) : Bool :=
  match info.pid with
  | some p => if p != 0 then alive p else true
  | none => true

/-- Translation of `getActiveStreams` (part_001 lines 481-495): purge the
entries whose probe throws, then return the remaining keys. -/
def getActiveStreams (alive : Nat → Bool) (st : ManagerState) :
    List String × ManagerState :=
  let t := st.processes.filter (fun kv => entryKept alive kv.2)
  (t.map Prod.fst, { st with processes := t })

/-!  The synchronous part of `startStream` (part_001 lines 19-94) and its
eventual table effect. -/

/-- Outcome of the dedup prologue of `startStream` (part_001 lines 21-35). -/
inductive DedupResult where
  | existing (url : String)
  | proceed
deriving Repr, DecidableEq

/-- Translation of the dedup prologue (part_001 lines 21-35): when the name
already has an entry whose pid is truthy and alive, return the public URL at
once; when the probe throws, delete the stale entry and fall through; an
entry without a truthy pid falls through without being deleted. -/
def startDedup (cfg : Config) (alive : Nat → Bool) (st : ManagerState)
    (name : String) : DedupResult × ManagerState :=
  match tableGet st.processes name with
  | none => (.proceed, st)
  | some info =>
    match info.pid with
    | some p =>
      if p != 0 then
        if alive p then (.existing (getPublicUrl cfg name), st)
        else (.proceed, { st with processes := tableDelete st.processes name })
      else (.proceed, st)
    | none => (.proceed, st)

/-- The fresh `processInfo` installed at spawn time (part_001 lines 81-90):
`restartCount` starts at `0`, `isValidated` at `false`. -/
def spawnInfo (spawnPid : Option Nat) (src : String) (now : Nat) : ProcessInfo :=
  { pid := spawnPid, killed := false, rtspSource := src, startTime := now,
    restartCount := 0, isValidated := false }

/-- Synchronous table effect of `startStream`: dedup, then (on fall-through)
spawn and register the fresh entry (part_001 lines 75-90).  The first
component is `some url` when the dedup path returned without spawning. -/
def startStreamSync (cfg : Config) (alive : Nat → Bool) (st : ManagerState)
    (src name : String) (spawnPid : Option Nat) (now : Nat) :
    Option String × ManagerState :=
  match startDedup cfg alive st name with
  | (.existing url, st1) => (some url, st1)
  | (.proceed, st1) =>
    (none, { st1 with processes := tableSet st1.processes name (spawnInfo spawnPid src now) })

/-- Eventual result and table effect of one `startStream` call: the dedup
path returns the existing URL; the spawn path resolves with the public URL
when the child obtained a pid by the 2-second check, and otherwise deletes
the entry and rejects (part_001 lines 239-248).  `some url` means the
promise resolved with `url`; `none` means it rejected. -/
def startStreamFull (cfg : Config) (alive : Nat → Bool) (st : ManagerState)
    (src name : String) (spawnPid : Option Nat) (now : Nat) :
    Option String × ManagerState :=
  match startStreamSync cfg alive st src name spawnPid now with
  | (some url, st1) => (some url, st1)
  | (none, st1) =>
    if pidTruthy spawnPid then (some (getPublicUrl cfg name), st1)
    else (none, { st1 with processes := tableDelete st1.processes name })

/-!  Exit handling and auto-restart (part_001 lines 137-184). -/

/-- Translation of the backoff expression of the exit handler (part_001
line 161): `Math.min(2000 * Math.pow(1.5, restartCount), 30000)`.  All the
values reached for small exponents are exact in double precision, so the
rational computation coincides with the float one. -/
def retryDelay (n : Nat) : ℚ := min (2000 * (3 / 2) ^ n) 30000

/-- Modelled from the spec formula for comparison with the source
expression: restart delay for attempt n is `min(base * multiplier^n, cap)`. -/
def specRestartDelay (base multiplier cap : ℚ) (n : Nat) : ℚ :=
  min (base * multiplier ^ n) cap

/-- `const maxRetries = 10` (part_001 line 160). -/
def maxRetries : Nat := 10

/-- Registry after the exit handler's best-effort
`{streaming: false, processId: null}` write, whose failure is swallowed
(part_001 lines 144-156): on failure the collection is unchanged. -/
def exitRegistry (reg : Registry) (name : String) (now : Nat) (dbOk : Bool) :
    Registry :=
  if dbOk then markNotStreaming reg name now else reg

/-- Observable outcome of one run of the `exit` handler together with the
restart timer it may schedule. -/
structure ExitResult where
  state : ManagerState
  registry : Registry
  restartScheduled : Bool
  delayUsed : Option ℚ
  restartSpawned : Bool
  capturedCount : Nat
deriving Repr, DecidableEq

/-- Translation of the `exit` handler (part_001 lines 137-184) followed by
the timer body it schedules (lines 166-179).  `info` is the `processInfo`
captured by the handler's closure; `st` the manager state at exit time.
The handler deletes the entry and writes `streaming = false` (best effort);
when not shutting down, the job had reached `isValidated` and
`restartCount < maxRetries`, it schedules one restart after
`retryDelay restartCount`; the timer looks the camera up with
`{streamName, active: true}`, and when found increments the captured
`restartCount` and re-invokes `startStream` with the registry's current
source URI. -/
def handleExit (cfg : Config) (alive : Nat → Bool) (st : ManagerState)
    (name : String) (info : ProcessInfo) (reg : Registry) (dbOk : Bool)
    (restartSpawnPid : Option Nat) (now : Nat) : ExitResult :=
  let st1 : ManagerState := { st with processes := tableDelete st.processes name }
  let reg1 := exitRegistry reg name now dbOk
  if !st.isShuttingDown && info.isValidated then
    if info.restartCount < maxRetries then
      let d := retryDelay info.restartCount
      match regFindActive reg1 name with
      | some cam =>
        let cnt := info.restartCount + 1
        let st2 := (startStreamFull cfg alive st1 cam.rtspUrl name restartSpawnPid now).2
        { state := st2, registry := reg1, restartScheduled := true,
          delayUsed := some d, restartSpawned := true, capturedCount := cnt }
      | none =>
        { state := st1, registry := reg1, restartScheduled := true,
          delayUsed := some d, restartSpawned := false,
          capturedCount := info.restartCount }
    else
      { state := st1, registry := reg1, restartScheduled := false,
        delayUsed := none, restartSpawned := false,
        capturedCount := info.restartCount }
  else
    { state := st1, registry := reg1, restartScheduled := false,
      delayUsed := none, restartSpawned := false,
      capturedCount := info.restartCount }

/-- The validation callback's `processInfo.isValidated = true` (part_001
line 286), applied to the live entry it mutates. -/
def markValidated (st : ManagerState) (name : String) : ManagerState :=
  match tableGet st.processes name with
  | some info => { st with processes := tableSet st.processes name { info with isValidated := true } }
  | none => st

/-!  Resolution timeline of the `startStream` promise on the spawn path
(part_001 lines 70-334). -/

/-- Environment of one spawn-path run of `startStream`: what the OS, the
relay and the registry answer at each suspension point. -/
structure StartEnv where
  spawnErrored : Bool
  spawnPid : Option Nat
  aliveAtValidation : Bool
  inMapAtValidation : Bool
  relayAvailable : Bool
  dbWriteOk : Bool
deriving Repr, DecidableEq

/-- How the `startStream` promise settles. -/
inductive StartOutcome where
  | failed
  | resolved (url : String)
deriving Repr, DecidableEq

/-- Translation of the promise body of `startStream` after the spawn
(part_001 lines 70-334), sequenced in timer order: the `error` handler
rejects (lines 205-208); the 2-second check rejects when the child has no
pid (lines 239-248); otherwise the 15-second fallback resolves with the
public URL (lines 326-333) before the validation callback runs at 17
seconds (lines 255-323), which re-probes the pid, consults the relay
(`relayAvailable`, result only logged), sets `isValidated` and writes the
registry (failure swallowed).  Returns (promise outcome, final
`isValidated`, final registry). -/
def runStartPromise (cfg : Config) (env : StartEnv) (name : String)
    (reg : Registry) (now : Nat) : StartOutcome × Bool × Registry :=
  if env.spawnErrored then
    (.failed, false, exitRegistry reg name now env.dbWriteOk)
  else if pidTruthy env.spawnPid = false then
    (.failed, false, reg)
  else if env.aliveAtValidation && env.inMapAtValidation then
    let reg1 :=
      if env.dbWriteOk then
        regUpdateOne reg name
          (fun c => { c with streaming := true, processId := env.spawnPid, lastChecked := now })
      else reg
    (.resolved (getPublicUrl cfg name), true, reg1)
  else
    (.resolved (getPublicUrl cfg name), false, exitRegistry reg name now env.dbWriteOk)

/-!  stopStream and stopAll (part_001 lines 340-447). -/

/-- Observable outcome of one `stopStream` call. -/
structure StopResult where
  returned : Bool
  state : ManagerState
  registry : Registry
  sigtermSent : Bool
deriving Repr, DecidableEq

/-- Translation of `stopStream` (part_001 lines 340-401): without an entry,
return `false` and change nothing; with one, send SIGTERM when the child is
not already killed (a SIGKILL follows after the 3-second grace window),
delete the entry, write `streaming = false` best-effort, return `true`. -/
def stopStream (st : ManagerState) (reg : Registry) (name : String)
    (now : Nat) (dbOk : Bool) : StopResult :=
  match tableGet st.processes name with
  | none => { returned := false, state := st, registry := reg, sigtermSent := false }
  | some info =>
    { returned := true,
      state := { st with processes := tableDelete st.processes name },
      registry := if dbOk then markNotStreaming reg name now else reg,
      sigtermSent := !info.killed }

/-- One iteration of the `Promise.all` loop of `stopAll` (part_001 lines
421-428), sequenced as the single-threaded event loop runs it. -/
def stopAllStep (now : Nat) (dbOk : Bool) (acc : ManagerState × Registry)
    (n : String) : ManagerState × Registry :=
  let r := stopStream acc.1 acc.2 n now dbOk
  (r.state, r.registry)

/-- Translation of `stopAll` (part_001 lines 406-447): set
`isShuttingDown` first, return early on an empty table, otherwise stop
every stream of the key snapshot, force-kill leftovers and clear the
table. -/
def stopAll (st : ManagerState) (reg : Registry) (now : Nat) (dbOk : Bool) :
    ManagerState × Registry :=
  let st1 : ManagerState := { st with isShuttingDown := true }
  if st1.processes.isEmpty then (st1, reg)
  else
    let names := st1.processes.map Prod.fst
    let res := names.foldl (stopAllStep now dbOk) (st1, reg)
    ({ res.1 with processes := [] }, res.2)

/-!  The periodic convergence check (StreamMonitor.js lines 49-81). -/

/-- Corrective actions the monitor can issue through the supervisor. -/
inductive MonAction where
  | started (name : String)
  | stopped (name : String)
deriving Repr, DecidableEq

/-- One iteration of the camera loop of `checkAllStreams` (StreamMonitor.js
lines 53-77): probe liveness through the supervisor; when not running and
the record is active, re-invoke `startStream` (failures logged and
swallowed); when running, refresh `streaming` / `processId` from the
supervisor's entry; persist the record (`lastChecked` always refreshed). -/
def monitorStep (cfg : Config) (alive : Nat → Bool) (spawnPid : String → Option Nat)
    (now : Nat) (acc : ManagerState × Registry × List MonAction)
    (cam : CameraRecord) : ManagerState × Registry × List MonAction :=
  let st := acc.1
  let reg := acc.2.1
  let acts := acc.2.2
  let probe := isStreamRunning alive st cam.streamName
  let isRun := probe.1
  let st1 := probe.2
  if !isRun && cam.active then
    let st2 := (startStreamFull cfg alive st1 cam.rtspUrl cam.streamName (spawnPid cam.streamName) now).2
    let reg1 := regUpdateOne reg cam.streamName (fun c => { c with lastChecked := now })
    (st2, reg1, acts ++ [.started cam.streamName])
  else if isRun then
    let reg1 := regUpdateOne reg cam.streamName (fun c =>
      match tableGet st1.processes cam.streamName with
      | some i =>
        if pidTruthy i.pid then
          { c with streaming := true, processId := i.pid, lastChecked := now }
        else { c with lastChecked := now }
      | none => { c with lastChecked := now })
    (st1, reg1, acts)
  else
    (st1, regUpdateOne reg cam.streamName (fun c => { c with lastChecked := now }), acts)

/-- Translation of `checkAllStreams` (StreamMonitor.js lines 49-81): fetch
the `active: true` records once, then run the camera loop over that
snapshot.  The returned action list records every corrective call the loop
issued through the supervisor. -/
def checkAllStreams (cfg : Config) (alive : Nat → Bool)
    (spawnPid : String → Option Nat) (now : Nat) (st : ManagerState)
    (reg : Registry) : ManagerState × Registry × List MonAction :=
  (reg.filter (fun c => c.active)).foldl (monitorStep cfg alive spawnPid now) (st, reg, [])

/-!  Relay HTTP probe helpers (part_001 lines 508-607, FFmpegManager.js
second document lines 323-343). -/

/-- What one HTTP request attempt against the relay can observe. -/
inductive HttpAttempt where
  | response (status : Nat) (dataReceived : Bool)
  | connError
  | timeout
deriving Repr, DecidableEq

/-- What the synchronous URL machinery determines about a URL string:
`new URL(url)` either parses it (recording whether the scheme is https) or
throws. -/
inductive UrlParse where
  | parsed (isHttps : Bool)
  | malformed
deriving Repr, DecidableEq

/-- How a probe helper's promise settles: resolved with a boolean, or
rejected (a synchronous throw inside the `new Promise` executor rejects the
promise). -/
inductive ProbeResult where
  | resolved (b : Bool)
  | rejected
deriving Repr, DecidableEq

/-- The HEAD phase of `checkHttpEndpoint` (part_001 lines 557-599): a
response resolves with `status == 200`; a connection error or timeout falls
back to a GET request (`none`). -/
def headPhase : HttpAttempt → Option Bool
  | .response s _ => some (s == 200)
  | .connError => none
  | .timeout => none

/-- The GET fallback of `checkHttpEndpoint`: a response resolves with
`status == 200 && dataReceived`; errors and timeouts resolve `false`. -/
def getPhase : HttpAttempt → Bool
  | .response s d => s == 200 && d
  | .connError => false
  | .timeout => false

/-- Translation of `checkHttpEndpoint` (part_001 lines 542-607):
`new URL(url)` runs synchronously inside the executor, so a malformed URL
throws and rejects the promise; when the URL parses, either scheme is
served (the https flag only selects the request module), HEAD is tried
first, falling back to GET on connection error or timeout, and every
callback path resolves a boolean. -/
def checkHttpEndpoint (parse : String → UrlParse) (url : String)
    (head get : HttpAttempt) : ProbeResult :=
  match parse url with
  | .malformed => .rejected
  | .parsed _ =>
    match headPhase head with
    | some b => .resolved b
    | none => .resolved (getPhase get)

/-- Translation of `checkStreamAvailability` (FFmpegManager.js, second
document, lines 323-343): `http.get(publicUrl, ...)` runs synchronously in
the executor and throws when the URL does not parse or its protocol is not
http — with an https public base (a configuration config.js supports) the
promise therefore rejects; otherwise the callbacks resolve `status == 200`,
with connection errors and timeouts resolving `false`. -/
def checkStreamAvailability (parse : String → UrlParse) (url : String)
    (a : HttpAttempt) : ProbeResult :=
  match parse url with
  | .malformed => .rejected
  | .parsed true => .rejected
  | .parsed false =>
    match a with
    | .response s _ => .resolved (s == 200)
    | .connError => .resolved false
    | .timeout => .resolved false

/-- Translation of the retry loop `verifyStreamAvailability` (part_001
lines 508-536): succeed as soon as one attempt's `checkHttpEndpoint`
resolves `true`; its try/catch treats a rejection like a failed attempt, so
rejections never escape the loop. -/
def verifyStreamAvailability (parse : String → UrlParse) (url : String)
    (attempts : List (HttpAttempt × HttpAttempt)) : Bool :=
  attempts.any fun a =>
    match checkHttpEndpoint parse url a.1 a.2 with
    | .resolved b => b
    | .rejected => false

/-!  Lemmas about the association-list operations. -/

theorem tableGet_mem {t : ProcTable} {n : String} {info : ProcessInfo}
    (h : tableGet t n = some info) : (n, info) ∈ t := by
  induction t with
  | nil => simp [tableGet] at h
  | cons kv rest ih =>
    obtain ⟨k, v⟩ := kv
    by_cases hk : k = n
    · subst hk
      rw [tableGet, if_pos rfl] at h
      cases h
      exact List.mem_cons_self _ _
    · rw [tableGet, if_neg hk] at h
      exact List.mem_cons_of_mem _ (ih h)

theorem tableGet_tableDelete_self (t : ProcTable) (n : String) :
    tableGet (tableDelete t n) n = none := by
  induction t with
  | nil => rfl
  | cons kv rest ih =>
    obtain ⟨k, v⟩ := kv
    by_cases hk : k = n
    · rw [tableDelete, if_pos hk]; exact ih
    · rw [tableDelete, if_neg hk, tableGet, if_neg hk]; exact ih

theorem tableGet_tableDelete_ne (t : ProcTable) {m n : String} (h : m ≠ n) :
    tableGet (tableDelete t n) m = tableGet t m := by
  induction t with
  | nil => rfl
  | cons kv rest ih =>
    obtain ⟨k, v⟩ := kv
    by_cases hk : k = n
    · subst hk
      rw [tableDelete, if_pos rfl, tableGet, if_neg (fun hkm => h hkm.symm)]
      exact ih
    · rw [tableDelete, if_neg hk]
      by_cases hkm : k = m
      · rw [tableGet, if_pos hkm, tableGet, if_pos hkm]
      · rw [tableGet, if_neg hkm, tableGet, if_neg hkm]; exact ih

theorem tableGet_tableSet_self (t : ProcTable) (n : String) (v : ProcessInfo) :
    tableGet (tableSet t n v) n = some v := by
  induction t with
  | nil => simp [tableSet, tableGet]
  | cons kv rest ih =>
    obtain ⟨k, w⟩ := kv
    by_cases hk : k = n
    · rw [tableSet, if_pos hk, tableGet, if_pos rfl]
    · rw [tableSet, if_neg hk, tableGet, if_neg hk]; exact ih

theorem tableGet_tableSet_ne (t : ProcTable) {m n : String} (v : ProcessInfo)
    (h : m ≠ n) : tableGet (tableSet t n v) m = tableGet t m := by
  induction t with
  | nil =>
    simp only [tableSet, tableGet]
    rw [if_neg (fun hnm : n = m => h hnm.symm)]
  | cons kv rest ih =>
    obtain ⟨k, w⟩ := kv
    by_cases hk : k = n
    · subst hk
      rw [tableSet, if_pos rfl, tableGet, if_neg (fun hnm : k = m => h hnm.symm),
        tableGet, if_neg (fun hkm : k = m => h hkm.symm)]
    · rw [tableSet, if_neg hk]
      by_cases hkm : k = m
      · rw [tableGet, if_pos hkm, tableGet, if_pos hkm]
      · rw [tableGet, if_neg hkm, tableGet, if_neg hkm]; exact ih

theorem keys_tableDelete (t : ProcTable) (n : String) :
    (tableDelete t n).map Prod.fst = (t.map Prod.fst).filter (fun x => x != n) := by
  induction t with
  | nil => rfl
  | cons kv rest ih =>
    obtain ⟨k, v⟩ := kv
    by_cases hk : k = n
    · subst hk
      rw [tableDelete, if_pos rfl, List.map_cons, List.filter_cons,
        if_neg (by simp)]
      exact ih
    · rw [tableDelete, if_neg hk, List.map_cons, List.map_cons, List.filter_cons,
        if_pos (by simpa using hk)]
      rw [ih]

theorem keysNodup_tableDelete {t : ProcTable} (n : String) (h : keysNodup t) :
    keysNodup (tableDelete t n) := by
  rw [keysNodup, keys_tableDelete]
  exact h.filter _

theorem keys_tableSet (t : ProcTable) (n : String) (v : ProcessInfo) :
    (tableSet t n v).map Prod.fst =
      if n ∈ t.map Prod.fst then t.map Prod.fst else t.map Prod.fst ++ [n] := by
  induction t with
  | nil => simp [tableSet]
  | cons kv rest ih =>
    obtain ⟨k, w⟩ := kv
    by_cases hk : k = n
    · subst hk
      rw [tableSet, if_pos rfl, List.map_cons, List.map_cons,
        if_pos (List.mem_cons_self _ _)]
    · rw [tableSet, if_neg hk, List.map_cons, List.map_cons, ih]
      by_cases hm : n ∈ rest.map Prod.fst
      · rw [if_pos hm, if_pos (List.mem_cons_of_mem _ hm)]
      · rw [if_neg hm, if_neg (by
          intro hc
          rcases List.mem_cons.1 hc with hc | hc
          · exact hk hc.symm
          · exact hm hc), List.cons_append]

theorem keysNodup_tableSet {t : ProcTable} (n : String) (v : ProcessInfo)
    (h : keysNodup t) : keysNodup (tableSet t n v) := by
  rw [keysNodup, keys_tableSet]
  by_cases hm : n ∈ t.map Prod.fst
  · rw [if_pos hm]; exact h
  · rw [if_neg hm]
    exact h.append (List.nodup_singleton n)
      (fun a ha hc => hm ((List.mem_singleton.1 hc) ▸ ha))

theorem countName_eq_zero {t : ProcTable} {n : String}
    (h : n ∉ t.map Prod.fst) : countName t n = 0 := by
  induction t with
  | nil => rfl
  | cons kv rest ih =>
    obtain ⟨k, v⟩ := kv
    rw [List.map_cons, List.mem_cons] at h
    push_neg at h
    rw [countName, List.filter_cons]
    have hk : ((k, v).1 == n) = false := by
      simp only [beq_eq_false_iff_ne]
      exact fun hkn => h.1 hkn.symm
    rw [hk]
    exact ih h.2

theorem countName_le_one {t : ProcTable} (n : String) (h : keysNodup t) :
    countName t n ≤ 1 := by
  induction t with
  | nil => exact Nat.zero_le 1
  | cons kv rest ih =>
    obtain ⟨k, v⟩ := kv
    rw [keysNodup, List.map_cons, List.nodup_cons] at h
    rw [countName, List.filter_cons]
    by_cases hk : k = n
    · subst hk
      rw [if_pos (by simp)]
      have h0 : countName rest k = 0 := countName_eq_zero h.1
      rw [countName] at h0
      rw [List.length_cons, h0]
    · rw [if_neg (by simpa using hk)]
      exact ih h.2

theorem tableGet_of_mem_nodup {t : ProcTable} {n : String} {w : ProcessInfo}
    (hnd : keysNodup t) (hm : (n, w) ∈ t) : tableGet t n = some w := by
  induction t with
  | nil => cases hm
  | cons kv rest ih =>
    obtain ⟨k, v⟩ := kv
    rw [keysNodup, List.map_cons, List.nodup_cons] at hnd
    rcases List.mem_cons.1 hm with hm | hm
    · cases hm
      rw [tableGet, if_pos rfl]
    · by_cases hk : k = n
      · subst hk
        exact absurd (List.mem_map_of_mem Prod.fst hm) hnd.1
      · rw [tableGet, if_neg hk]
        exact ih hnd.2 hm

theorem keysNodup_filter (p : String × ProcessInfo → Bool) {t : ProcTable}
    (h : keysNodup t) : keysNodup (t.filter p) :=
  ((t.filter_sublist).map Prod.fst).nodup h

/-- Registry analogue: updating the first document with a name rewrites
exactly what `regFind` returns for that name. -/
theorem regFind_regUpdateOne_self (reg : Registry) (n : String)
    (f : CameraRecord → CameraRecord)
    (hf : ∀ c, (f c).streamName = c.streamName) :
    regFind (regUpdateOne reg n f) n = (regFind reg n).map f := by
  induction reg with
  | nil => rfl
  | cons c rest ih =>
    by_cases hc : c.streamName = n
    · rw [regUpdateOne, if_pos hc, regFind, regFind, if_pos hc,
        if_pos ((hf c).trans hc)]
      rfl
    · rw [regUpdateOne, if_neg hc, regFind, if_neg hc, regFind, if_neg hc]
      exact ih

/-!  Facts about the backoff function. -/

theorem retryDelay_le_succ (n : Nat) : retryDelay n ≤ retryDelay (n + 1) := by
  unfold retryDelay
  refine min_le_min ?_ le_rfl
  refine mul_le_mul_of_nonneg_left ?_ (by norm_num)
  exact pow_le_pow_right₀ (by norm_num) (Nat.le_succ n)

theorem retryDelay_strict (n : Nat) (h : retryDelay (n + 1) < 30000) :
    retryDelay n < retryDelay (n + 1) := by
  unfold retryDelay at h ⊢
  have hb : 2000 * (3 / 2 : ℚ) ^ (n + 1) < 30000 := by
    rcases min_lt_iff.1 h with h' | h'
    · exact h'
    · exact absurd h' (lt_irrefl _)
  have hs : 2000 * (3 / 2 : ℚ) ^ n < 2000 * (3 / 2 : ℚ) ^ (n + 1) := by
    refine mul_lt_mul_of_pos_left ?_ (by norm_num)
    exact pow_lt_pow_right₀ (by norm_num) (Nat.lt_succ_self n)
  calc min (2000 * (3 / 2 : ℚ) ^ n) 30000 ≤ 2000 * (3 / 2 : ℚ) ^ n := min_le_left _ _
    _ < 2000 * (3 / 2 : ℚ) ^ (n + 1) := hs
    _ = min (2000 * (3 / 2 : ℚ) ^ (n + 1)) 30000 := (min_eq_left hb.le).symm

/-!  Claim theorems. -/

/-- C4: the restart delay for attempt n equals `min(base * multiplier^n, cap)`
with base 2000 ms, multiplier 1.5 and cap 30000 ms, and as a function of n
it is non-decreasing, strictly increasing as long as the next value is
still below the cap. -/
theorem C4_backoff_formula_monotone :
    ∀ n : Nat,
      retryDelay n = specRestartDelay 2000 (3 / 2) 30000 n ∧
      retryDelay n ≤ retryDelay (n + 1) ∧
      (retryDelay (n + 1) < 30000 → retryDelay n < retryDelay (n + 1)) :=
  fun n => ⟨rfl, retryDelay_le_succ n, retryDelay_strict n⟩

/-- Witness for C4 at n = 2: the delay for attempt 3 is still below the cap
and the delay strictly increases from attempt 2 to attempt 3. -/
theorem C4_backoff_witness :
    retryDelay 3 < 30000 ∧ retryDelay 2 < retryDelay 3 := by
  have h : retryDelay (2 + 1) < 30000 := by norm_num [retryDelay]
  exact ⟨h, (C4_backoff_formula_monotone 2).2.2 h⟩

/-- The behaviour of the URL constructor on the concrete strings used by
the C10 counterexample and witness: both well-formed URLs parse (recording
the scheme), the remaining string throws. -/
def demoParse : String → UrlParse := fun u =>
  if u = "https://cctv.thabir.ai:8888/cam1" then .parsed true
  else if u = "http://cctv.thabir.ai:8888/cam1" then .parsed false
  else .malformed

/-- C10 counterexample: the helpers do not always resolve a boolean.  With
an https public base — a configuration config.js supports —
`checkStreamAvailability`'s synchronous `http.get` throws
ERR_INVALID_PROTOCOL and the promise rejects even though the endpoint would
answer 200; with a string `new URL` cannot parse, `checkHttpEndpoint`
rejects as well. -/
theorem C10_probe_rejects_counterexample :
    checkStreamAvailability demoParse "https://cctv.thabir.ai:8888/cam1"
      (HttpAttempt.response 200 true) = ProbeResult.rejected ∧
    checkHttpEndpoint demoParse "not a url"
      (HttpAttempt.response 200 true) (HttpAttempt.response 200 true) =
      ProbeResult.rejected :=
  ⟨rfl, rfl⟩

/-- C10 as amended: for every URL whose synchronous setup succeeds — any
URL that parses for `checkHttpEndpoint`, an http-scheme URL for
`checkStreamAvailability` — and every attempt outcome, the helpers resolve
a boolean rather than rejecting, and resolve `true` exactly when the
endpoint answered with status 200 (`checkHttpEndpoint`: a 200 HEAD
response, or HEAD erroring or timing out and the GET fallback answering 200
with a body; `checkStreamAvailability`: its single GET answering 200); any
non-200 status, connection error or timeout resolves `false`.  A URL whose
synchronous setup throws — malformed, or an https public base handed to
`http.get` — rejects the promise instead. -/
theorem C10_http_probe_amended :
    ∀ (parse : String → UrlParse) (url : String) (head get a : HttpAttempt),
      (∀ s : Bool, parse url = UrlParse.parsed s →
        (∃ b, checkHttpEndpoint parse url head get = ProbeResult.resolved b) ∧
        (checkHttpEndpoint parse url head get = ProbeResult.resolved true ↔
          ((∃ d, head = HttpAttempt.response 200 d) ∨
            ((head = HttpAttempt.connError ∨ head = HttpAttempt.timeout) ∧
              get = HttpAttempt.response 200 true)))) ∧
      (parse url = UrlParse.parsed false →
        (∃ b, checkStreamAvailability parse url a = ProbeResult.resolved b) ∧
        (checkStreamAvailability parse url a = ProbeResult.resolved true ↔
          ∃ d, a = HttpAttempt.response 200 d)) ∧
      (parse url = UrlParse.malformed →
        checkHttpEndpoint parse url head get = ProbeResult.rejected ∧
        checkStreamAvailability parse url a = ProbeResult.rejected) ∧
      (parse url = UrlParse.parsed true →
        checkStreamAvailability parse url a = ProbeResult.rejected) := by
  intro parse url head get a
  refine ⟨?_, ?_, ?_, ?_⟩
  · intro s hs
    constructor
    · rw [checkHttpEndpoint, hs]
      cases head <;> cases get <;> simp [headPhase, getPhase]
    · rw [checkHttpEndpoint, hs]
      cases head <;> cases get <;>
        simp [headPhase, getPhase]
  · intro hs
    constructor
    · simp only [checkStreamAvailability.eq_def, hs]
      cases a <;> simp
    · simp only [checkStreamAvailability.eq_def, hs]
      cases a <;> simp
  · intro hs
    constructor
    · rw [checkHttpEndpoint, hs]
    · simp only [checkStreamAvailability.eq_def, hs]
  · intro hs
    simp only [checkStreamAvailability.eq_def, hs]

/-- Witness for the amended C10: on the well-formed http URL both helpers
resolve, with `true` exactly on a 200 answer; the https public base and the
malformed string reject. -/
theorem C10_http_probe_amended_witness :
    (checkHttpEndpoint demoParse "http://cctv.thabir.ai:8888/cam1"
        HttpAttempt.timeout (HttpAttempt.response 200 true) =
      ProbeResult.resolved true) ∧
    (checkStreamAvailability demoParse "http://cctv.thabir.ai:8888/cam1"
        (HttpAttempt.response 200 true) = ProbeResult.resolved true) ∧
    (checkStreamAvailability demoParse "https://cctv.thabir.ai:8888/cam1"
        HttpAttempt.timeout = ProbeResult.rejected) ∧
    (checkHttpEndpoint demoParse "not a url" HttpAttempt.timeout
        HttpAttempt.timeout = ProbeResult.rejected) := by
  refine ⟨?_, ?_, ?_, ?_⟩
  · exact ((C10_http_probe_amended demoParse "http://cctv.thabir.ai:8888/cam1"
      HttpAttempt.timeout (HttpAttempt.response 200 true) HttpAttempt.timeout).1
      false (by decide)).2.mpr (Or.inr ⟨Or.inr rfl, rfl⟩)
  · exact ((C10_http_probe_amended demoParse "http://cctv.thabir.ai:8888/cam1"
      HttpAttempt.timeout HttpAttempt.timeout
      (HttpAttempt.response 200 true)).2.1 (by decide)).2.mpr ⟨true, rfl⟩
  · exact (C10_http_probe_amended demoParse "https://cctv.thabir.ai:8888/cam1"
      HttpAttempt.timeout HttpAttempt.timeout HttpAttempt.timeout).2.2.2 (by decide)
  · exact ((C10_http_probe_amended demoParse "not a url"
      HttpAttempt.timeout HttpAttempt.timeout HttpAttempt.timeout).2.2.1
      (by decide)).1

/-- C1: `start` is idempotent per stream name.  When the name already has a
table entry whose recorded pid passes the OS liveness probe, the call
returns the public URL of the name at once (the same deterministic URL any
earlier call returned), spawns nothing, leaves the state untouched, and the
table holds at most one entry for the name; when the probe shows the
recorded process dead, the stale entry is purged and the call falls through
to a fresh spawn that re-registers the name (still at most one entry). -/
theorem C1_start_idempotent_per_name :
    ∀ (cfg : Config) (alive : Nat → Bool) (st : ManagerState)
      (name src : String) (info : ProcessInfo) (p : Nat) (pid2 : Option Nat)
      (now : Nat),
      tableGet st.processes name = some info →
      info.pid = some p →
      p ≠ 0 →
      keysNodup st.processes →
      ((alive p = true →
          startStreamFull cfg alive st src name pid2 now =
            (some (getPublicUrl cfg name), st) ∧
          countName st.processes name ≤ 1) ∧
        (alive p = false →
          (startStreamSync cfg alive st src name pid2 now).1 = none ∧
          (startStreamSync cfg alive st src name pid2 now).2.processes =
            tableSet (tableDelete st.processes name) name (spawnInfo pid2 src now) ∧
          tableGet (startStreamSync cfg alive st src name pid2 now).2.processes name =
            some (spawnInfo pid2 src now) ∧
          countName (startStreamSync cfg alive st src name pid2 now).2.processes name ≤ 1)) := by
  intro cfg alive st name src info p pid2 now hget hpid hp0 hnd
  have hp0' : (p != 0) = true := by simpa using hp0
  constructor
  · intro halive
    constructor
    · simp [startStreamFull, startStreamSync, startDedup, hget, hpid, hp0', halive]
    · exact countName_le_one name hnd
  · intro hdead
    have hsync :
        startStreamSync cfg alive st src name pid2 now =
          (none,
            { st with processes :=
                tableSet (tableDelete st.processes name) name (spawnInfo pid2 src now) }) := by
      simp [startStreamSync, startDedup, hget, hpid, hp0', hdead]
    refine ⟨by rw [hsync], by rw [hsync], ?_, ?_⟩
    · rw [hsync]
      exact tableGet_tableSet_self _ _ _
    · rw [hsync]
      exact countName_le_one name
        (keysNodup_tableSet _ _ (keysNodup_tableDelete _ hnd))

/-- Witness for C1: a state with one live entry for cam1 makes the second
`start` return the existing URL without spawning; a state whose probe fails
leads to a purge followed by a fresh registration. -/
theorem C1_start_idempotent_witness :
    (startStreamFull ⟨"http://mtx:8888", "rtsp://mtx:8554"⟩ (fun _ => true)
        ⟨[("cam1", ⟨some 42, false, "rtsp://cam", 0, 0, true⟩)], false⟩
        "rtsp://cam" "cam1" (some 7) 5 =
      (some (getPublicUrl ⟨"http://mtx:8888", "rtsp://mtx:8554"⟩ "cam1"),
        ⟨[("cam1", ⟨some 42, false, "rtsp://cam", 0, 0, true⟩)], false⟩)) ∧
    (tableGet
        (startStreamSync ⟨"http://mtx:8888", "rtsp://mtx:8554"⟩ (fun _ => false)
          ⟨[("cam1", ⟨some 42, false, "rtsp://cam", 0, 0, true⟩)], false⟩
          "rtsp://cam" "cam1" (some 7) 5).2.processes "cam1" =
      some (spawnInfo (some 7) "rtsp://cam" 5)) := by
  constructor
  · exact ((C1_start_idempotent_per_name ⟨"http://mtx:8888", "rtsp://mtx:8554"⟩
      (fun _ => true)
      ⟨[("cam1", ⟨some 42, false, "rtsp://cam", 0, 0, true⟩)], false⟩
      "cam1" "rtsp://cam"
      ⟨some 42, false, "rtsp://cam", 0, 0, true⟩ 42 (some 7) 5
      rfl rfl (by decide) (List.nodup_singleton "cam1")).1 rfl).1
  · exact ((C1_start_idempotent_per_name ⟨"http://mtx:8888", "rtsp://mtx:8554"⟩
      (fun _ => false)
      ⟨[("cam1", ⟨some 42, false, "rtsp://cam", 0, 0, true⟩)], false⟩
      "cam1" "rtsp://cam"
      ⟨some 42, false, "rtsp://cam", 0, 0, true⟩ 42 (some 7) 5
      rfl rfl (by decide) (List.nodup_singleton "cam1")).2 rfl).2.2.1

/-- C2: on the spawn path, `start` rejects with the start-failure error
exactly when the child never obtained an OS handle (no truthy pid after the
initial wait; a spawn `error` event in Node implies the pid is absent); in
every other environment — validation probe negative, relay probe negative,
registry write failing, fallback ceiling reached first — it resolves with
the deterministic public URL of the stream name, a value independent of
process state. -/
theorem C2_start_failure_iff_no_pid :
    ∀ (cfg : Config) (env : StartEnv) (name : String) (reg : Registry) (now : Nat),
      (env.spawnErrored = true → env.spawnPid = none) →
      (((runStartPromise cfg env name reg now).1 = StartOutcome.failed) ↔
        pidTruthy env.spawnPid = false) ∧
      (pidTruthy env.spawnPid = true →
        (runStartPromise cfg env name reg now).1 =
          StartOutcome.resolved (getPublicUrl cfg name)) := by
  intro cfg env name reg now herr
  by_cases he : env.spawnErrored = true
  · have hp : env.spawnPid = none := herr he
    constructor
    · rw [runStartPromise, if_pos he]
      simp [hp, pidTruthy]
    · intro hpt
      rw [hp] at hpt
      simp [pidTruthy] at hpt
  · constructor
    · rw [runStartPromise, if_neg he]
      by_cases hpt : pidTruthy env.spawnPid = false
      · rw [if_pos hpt]
        simp [hpt]
      · have hpt' : pidTruthy env.spawnPid = true := by
          revert hpt; cases pidTruthy env.spawnPid <;> simp
        rw [if_neg hpt]
        by_cases hv : (env.aliveAtValidation && env.inMapAtValidation) = true
        · rw [if_pos hv]; simp [hpt']
        · rw [if_neg hv]; simp [hpt']
    · intro hpt
      have hpt' : ¬pidTruthy env.spawnPid = false := by simp [hpt]
      rw [runStartPromise, if_neg he, if_neg hpt']
      by_cases hv : (env.aliveAtValidation && env.inMapAtValidation) = true
      · rw [if_pos hv]
      · rw [if_neg hv]

/-- Witness for C2: a child that obtained pid 9 resolves with the public
URL even with the validation probe and the relay probe both negative and
the registry write failing; one with no pid rejects. -/
theorem C2_start_failure_witness :
    ((runStartPromise ⟨"http://mtx:8888", "rtsp://mtx:8554"⟩
        ⟨false, some 9, false, false, false, false⟩ "cam1" [] 0).1 =
      StartOutcome.resolved
        (getPublicUrl ⟨"http://mtx:8888", "rtsp://mtx:8554"⟩ "cam1")) ∧
    ((runStartPromise ⟨"http://mtx:8888", "rtsp://mtx:8554"⟩
        ⟨false, none, true, true, true, true⟩ "cam1" [] 0).1 =
      StartOutcome.failed) := by
  constructor
  · exact (C2_start_failure_iff_no_pid _ ⟨false, some 9, false, false, false, false⟩
      "cam1" [] 0 (by intro h; cases h)).2 rfl
  · exact (C2_start_failure_iff_no_pid _ ⟨false, none, true, true, true, true⟩
      "cam1" [] 0 (by intro h; cases h)).1.mpr rfl

/-- C3: the exit handler never auto-restarts a job that never reached
`isValidated = true`; a job that exits after validation, with the registry
still holding an `active: true` record for the name, `restartCount` below
the maximum and no global shutdown in progress, triggers exactly one
restart attempt, scheduled after the computed backoff delay
`retryDelay restartCount`. -/
theorem C3_restart_gated_on_validation :
    ∀ (cfg : Config) (alive : Nat → Bool) (st : ManagerState) (name : String)
      (info : ProcessInfo) (reg : Registry) (dbOk : Bool) (pid2 : Option Nat)
      (now : Nat),
      (info.isValidated = false →
        (handleExit cfg alive st name info reg dbOk pid2 now).restartScheduled = false ∧
        (handleExit cfg alive st name info reg dbOk pid2 now).delayUsed = none ∧
        (handleExit cfg alive st name info reg dbOk pid2 now).restartSpawned = false) ∧
      (∀ cam : CameraRecord,
        info.isValidated = true →
        st.isShuttingDown = false →
        info.restartCount < maxRetries →
        regFindActive (exitRegistry reg name now dbOk) name = some cam →
        (handleExit cfg alive st name info reg dbOk pid2 now).restartScheduled = true ∧
        (handleExit cfg alive st name info reg dbOk pid2 now).delayUsed =
          some (retryDelay info.restartCount) ∧
        (handleExit cfg alive st name info reg dbOk pid2 now).restartSpawned = true) := by
  intro cfg alive st name info reg dbOk pid2 now
  constructor
  · intro hnv
    rw [handleExit]
    simp [hnv]
  · intro cam hv hsd hcnt hfind
    rw [handleExit]
    simp [hv, hsd, hcnt, hfind]

/-- Witness for C3: a never-validated job is not restarted; a validated one
with an active registry record and count 0 is restarted once after
`retryDelay 0`. -/
theorem C3_restart_gated_witness :
    ((handleExit ⟨"http://mtx:8888", "rtsp://mtx:8554"⟩ (fun _ => true)
        ⟨[("cam1", ⟨some 42, false, "rtsp://cam", 0, 0, false⟩)], false⟩ "cam1"
        ⟨some 42, false, "rtsp://cam", 0, 0, false⟩
        [⟨"cam1", "rtsp://cam", true, true, some 42, 0⟩] true (some 43) 5).restartScheduled
      = false) ∧
    ((handleExit ⟨"http://mtx:8888", "rtsp://mtx:8554"⟩ (fun _ => true)
        ⟨[("cam1", ⟨some 42, false, "rtsp://cam", 0, 0, true⟩)], false⟩ "cam1"
        ⟨some 42, false, "rtsp://cam", 0, 0, true⟩
        [⟨"cam1", "rtsp://cam", true, true, some 42, 0⟩] true (some 43) 5).delayUsed
      = some (retryDelay 0)) := by
  constructor
  · exact ((C3_restart_gated_on_validation _ _ _ "cam1"
      ⟨some 42, false, "rtsp://cam", 0, 0, false⟩ _ true (some 43) 5).1 rfl).1
  · exact ((C3_restart_gated_on_validation _ _ _ "cam1"
      ⟨some 42, false, "rtsp://cam", 0, 0, true⟩ _ true (some 43) 5).2
      ⟨"cam1", "rtsp://cam", true, false, none, 5⟩ rfl rfl (by decide) (by decide)).2.1

/-!  Concrete scenario for C5: a stream that is started, validated, exits,
is restarted by the supervisor, is validated again and exits again. -/

def demoCfg : Config := ⟨"http://mtx:8888", "rtsp://mtx:8554"⟩

def aliveAlways : Nat → Bool := fun _ => true

def demoReg : Registry := [⟨"cam1", "rtsp://cam", true, true, some 100, 0⟩]

/-- First validated exit: the captured job record is the fresh-start entry
(count 0) with `isValidated` set by the validation callback. -/
def demoExit1 : ExitResult :=
  handleExit demoCfg aliveAlways
    (markValidated
      (startStreamFull demoCfg aliveAlways ⟨[], false⟩ "rtsp://cam" "cam1" (some 100) 0).2
      "cam1")
    "cam1" ⟨some 100, false, "rtsp://cam", 0, 0, true⟩ demoReg true (some 101) 5

/-- Second validated exit, of the process the supervisor itself restarted:
the captured record is the entry `startStream` installed during that
restart. -/
def demoExit2 : ExitResult :=
  handleExit demoCfg aliveAlways (markValidated demoExit1.state "cam1")
    "cam1" ⟨some 101, false, "rtsp://cam", 5, 0, true⟩ demoExit1.registry true
    (some 102) 9

/-- C5: the claim fails on the code.  A supervisor-initiated restart
re-invokes `startStream`, which installs a fresh job record with
`restartCount = 0` (part_001 line 86), so the incremented count lives only
in the exit handler's closure: after the first supervisor restart the live
entry again carries count 0, and the second validated exit again uses the
attempt-0 backoff `retryDelay 0` instead of the strictly larger
`retryDelay 1` — the counter is reset by every supervisor restart and the
max-retry ceiling of the handler is never approached, contradicting the
code's own `Attempt N/10` accounting. -/
theorem C5_restart_counter_reset_by_supervisor_restart :
    demoExit1.delayUsed = some (retryDelay 0) ∧
    demoExit1.capturedCount = 1 ∧
    tableGet demoExit1.state.processes "cam1" =
      some ⟨some 101, false, "rtsp://cam", 5, 0, false⟩ ∧
    demoExit2.delayUsed = some (retryDelay 0) ∧
    demoExit2.capturedCount = 1 ∧
    tableGet demoExit2.state.processes "cam1" =
      some ⟨some 102, false, "rtsp://cam", 9, 0, false⟩ ∧
    retryDelay 0 < retryDelay 1 := by
  refine ⟨rfl, rfl, by decide, rfl, rfl, by decide, ?_⟩
  norm_num [retryDelay]

/-!  Concrete counterexample state for C6: a table entry recorded before the
spawn obtained any pid (reachable between `processes.set` at part_001 line
90 and the 2-second pid check, when the spawn failed). -/

def ghostInfo : ProcessInfo := ⟨none, false, "rtsp://cam", 0, 0, false⟩

def ghostState : ManagerState := ⟨[("cam1", ghostInfo)], false⟩

def aliveNever : Nat → Bool := fun _ => false

/-- C6 counterexample: in a state holding one entry with no recorded pid,
under an OS oracle for which every probe fails, `getActiveStreams` still
returns the name and leaves the entry in the table, and `isStreamRunning`
does not purge it either — so neither operation reflects pure OS-level
truth with dead entries always removed, as the claim states. -/
theorem C6_counterexample_pidless_entry :
    pidTruthy ghostInfo.pid = false ∧
    (getActiveStreams aliveNever ghostState).1 = ["cam1"] ∧
    (getActiveStreams aliveNever ghostState).2 = ghostState ∧
    (isStreamRunning aliveNever ghostState "cam1").1 = false ∧
    (isStreamRunning aliveNever ghostState "cam1").2 = ghostState :=
  ⟨rfl, rfl, rfl, rfl, rfl⟩

/-- Unfolding lemma for `isStreamRunning` once the looked-up entry is
known. -/
theorem isStreamRunning_eq {st : ManagerState} {name : String}
    {info : ProcessInfo} (alive : Nat → Bool)
    (hget : tableGet st.processes name = some info) :
    isStreamRunning alive st name =
      (match info.pid with
       | some p =>
         if (p != 0) = true then
           if alive p = true then (true, st)
           else (false, { st with processes := tableDelete st.processes name })
         else (false, st)
       | none => (false, st)) := by
  rw [isStreamRunning, hget]

/-- Unfolding lemma for `isStreamRunning` with a recorded pid. -/
theorem isStreamRunning_eq_some {st : ManagerState} {name : String}
    {info : ProcessInfo} {p : Nat} (alive : Nat → Bool)
    (hget : tableGet st.processes name = some info) (hpid : info.pid = some p) :
    isStreamRunning alive st name =
      (if (p != 0) = true then
        if alive p = true then (true, st)
        else (false, { st with processes := tableDelete st.processes name })
      else (false, st)) := by
  rw [isStreamRunning_eq alive hget, hpid]

/-- Unfolding lemma for `isStreamRunning` with no recorded pid. -/
theorem isStreamRunning_eq_none {st : ManagerState} {name : String}
    {info : ProcessInfo} (alive : Nat → Bool)
    (hget : tableGet st.processes name = some info) (hpid : info.pid = none) :
    isStreamRunning alive st name = (false, st) := by
  rw [isStreamRunning_eq alive hget, hpid]

/-- Unfolding lemma for `entryKept` with a recorded pid. -/
theorem entryKept_some {info : ProcessInfo} {p : Nat} (alive : Nat → Bool)
    (hpid : info.pid = some p) :
    entryKept alive info = (if (p != 0) = true then alive p else true) := by
  rw [entryKept, hpid]

/-- Unfolding lemma for `getActiveStreams`. -/
theorem getActiveStreams_eq (alive : Nat → Bool) (st : ManagerState) :
    getActiveStreams alive st =
      ((st.processes.filter (fun kv => entryKept alive kv.2)).map Prod.fst,
        { st with processes := st.processes.filter (fun kv => entryKept alive kv.2) }) :=
  rfl

/-- C6 as amended: the OS-truth semantics holds for entries with a recorded
(truthy) pid — `isStreamRunning` answers `true` exactly when the recorded
pid passes the signal-0 probe, and both operations purge an entry whose pid
is present but dead — while an entry with no recorded pid is reported
not-running but is not purged, and `getActiveStreams` retains and returns
it. -/
theorem C6_liveness_queries_amended :
    ∀ (alive : Nat → Bool) (st : ManagerState) (name : String)
      (info : ProcessInfo),
      tableGet st.processes name = some info →
      keysNodup st.processes →
      (((isStreamRunning alive st name).1 = true ↔
          ∃ p, info.pid = some p ∧ p ≠ 0 ∧ alive p = true) ∧
        (∀ p, info.pid = some p → p ≠ 0 → alive p = false →
          tableGet (isStreamRunning alive st name).2.processes name = none ∧
          name ∉ (getActiveStreams alive st).1) ∧
        (info.pid = none →
          (isStreamRunning alive st name).2 = st ∧
          name ∈ (getActiveStreams alive st).1 ∧
          tableGet (getActiveStreams alive st).2.processes name = some info)) := by
  intro alive st name info hget hnd
  refine ⟨?_, ?_, ?_⟩
  · cases hpid : info.pid with
    | none =>
      rw [isStreamRunning_eq_none alive hget hpid]
      constructor
      · intro h; cases h
      · rintro ⟨q, hq, _, _⟩
        cases hq
    | some p =>
      rw [isStreamRunning_eq_some alive hget hpid]
      by_cases hp : (p != 0) = true
      · rw [if_pos hp]
        by_cases ha : alive p = true
        · rw [if_pos ha]
          exact iff_of_true rfl ⟨p, rfl, by simpa using hp, ha⟩
        · have ha' : alive p = false := by revert ha; cases alive p <;> simp
          rw [ha']
          simp only [Bool.false_eq_true, if_false]
          constructor
          · intro h; cases h
          · rintro ⟨q, hq, _, haq⟩
            cases hq
            rw [ha'] at haq
            cases haq
      · have hp0 : p = 0 := by simpa using hp
        rw [if_neg hp]
        subst hp0
        constructor
        · intro h; cases h
        · rintro ⟨q, hq, hq0, _⟩
          cases hq
          exact absurd rfl hq0
  · intro p hpid hp0 hdead
    have hp : (p != 0) = true := by simpa using hp0
    constructor
    · rw [isStreamRunning_eq_some alive hget hpid, if_pos hp, hdead]
      simp only [Bool.false_eq_true, if_false]
      exact tableGet_tableDelete_self _ _
    · intro hmem
      rw [getActiveStreams_eq] at hmem
      rcases List.mem_map.1 hmem with ⟨⟨k, w⟩, hkw, hfst⟩
      rcases List.mem_filter.1 hkw with ⟨hin, hkeep⟩
      have hk : k = name := hfst
      subst hk
      have hw : some w = some info := by
        rw [← tableGet_of_mem_nodup hnd hin, hget]
      cases hw
      rw [entryKept_some alive hpid, if_pos hp, hdead] at hkeep
      cases hkeep
  · intro hpid
    have hkeep : entryKept alive info = true := by rw [entryKept, hpid]
    refine ⟨?_, ?_, ?_⟩
    · exact congrArg Prod.snd (isStreamRunning_eq_none alive hget hpid)
    · rw [getActiveStreams_eq]
      exact List.mem_map.2 ⟨(name, info),
        List.mem_filter.2 ⟨tableGet_mem hget, hkeep⟩, rfl⟩
    · rw [getActiveStreams_eq]
      exact tableGet_of_mem_nodup (keysNodup_filter _ hnd)
        (List.mem_filter.2 ⟨tableGet_mem hget, hkeep⟩)

/-- Witness for the amended C6: a live entry with a dead pid is purged by
`isStreamRunning`, while the pid-less `ghostState` entry is retained and
returned by `getActiveStreams`. -/
theorem C6_liveness_queries_witness :
    (tableGet
        (isStreamRunning aliveNever
          ⟨[("cam1", ⟨some 42, false, "rtsp://cam", 0, 0, true⟩)], false⟩
          "cam1").2.processes "cam1" = none) ∧
    ("cam1" ∈ (getActiveStreams aliveNever ghostState).1) := by
  constructor
  · exact ((C6_liveness_queries_amended aliveNever
      ⟨[("cam1", ⟨some 42, false, "rtsp://cam", 0, 0, true⟩)], false⟩
      "cam1" ⟨some 42, false, "rtsp://cam", 0, 0, true⟩
      rfl (List.nodup_singleton "cam1")).2.1 42 rfl (by decide) rfl).1
  · exact ((C6_liveness_queries_amended aliveNever ghostState "cam1" ghostInfo
      rfl (List.nodup_singleton "cam1")).2.2 rfl).2.1

/-- Unfolding lemma for `isStreamRunning` when the name has no entry. -/
theorem isStreamRunning_no_entry {st : ManagerState} {name : String}
    (alive : Nat → Bool) (h : tableGet st.processes name = none) :
    isStreamRunning alive st name = (false, st) := by
  rw [isStreamRunning, h]

/-- C7: `stop` returns `false` and changes nothing when the name has no
job; with a job it requests graceful termination (SIGTERM when the child is
not already killed), removes the entry, writes `streaming = false` to the
registry (when the best-effort write goes through) and returns `true`;
afterwards `isStreamRunning` answers `false` and the record's `streaming`
field is `false`. -/
theorem C7_stop_semantics :
    ∀ (alive : Nat → Bool) (st : ManagerState) (reg : Registry)
      (name : String) (now : Nat) (dbOk : Bool),
      (tableGet st.processes name = none →
        stopStream st reg name now dbOk = ⟨false, st, reg, false⟩) ∧
      (∀ info : ProcessInfo, tableGet st.processes name = some info →
        (stopStream st reg name now dbOk).returned = true ∧
        (info.killed = false →
          (stopStream st reg name now dbOk).sigtermSent = true) ∧
        tableGet (stopStream st reg name now dbOk).state.processes name = none ∧
        (isStreamRunning alive (stopStream st reg name now dbOk).state name).1 = false ∧
        (dbOk = true → ∀ c : CameraRecord, regFind reg name = some c →
          regFind (stopStream st reg name now dbOk).registry name =
            some { c with streaming := false, processId := none, lastChecked := now })) := by
  intro alive st reg name now dbOk
  constructor
  · intro hnone
    rw [stopStream, hnone]
  · intro info hget
    have hstop : stopStream st reg name now dbOk =
        { returned := true,
          state := { st with processes := tableDelete st.processes name },
          registry := if dbOk then markNotStreaming reg name now else reg,
          sigtermSent := !info.killed } := by
      rw [stopStream, hget]
    have hdel : tableGet (stopStream st reg name now dbOk).state.processes name = none := by
      rw [hstop]
      exact tableGet_tableDelete_self _ _
    refine ⟨by rw [hstop], ?_, hdel, ?_, ?_⟩
    · intro hk
      rw [hstop]
      simp [hk]
    · rw [isStreamRunning_no_entry alive hdel]
    · intro hdb c hc
      rw [hstop, if_pos hdb, markNotStreaming]
      rw [regFind_regUpdateOne_self reg name
        (fun c => { c with streaming := false, processId := none, lastChecked := now })
        (fun _ => rfl), hc]
      rfl

/-- Witness for C7: stopping an unknown name is a no-op returning `false`;
stopping a live one returns `true`, empties the table for the name and
flips the record's `streaming` to `false`. -/
theorem C7_stop_witness :
    (stopStream ⟨[], false⟩ [⟨"cam1", "rtsp://cam", true, true, some 42, 0⟩]
        "cam1" 5 true =
      ⟨false, ⟨[], false⟩, [⟨"cam1", "rtsp://cam", true, true, some 42, 0⟩], false⟩) ∧
    ((stopStream ⟨[("cam1", ⟨some 42, false, "rtsp://cam", 0, 0, true⟩)], false⟩
        [⟨"cam1", "rtsp://cam", true, true, some 42, 0⟩] "cam1" 5 true).returned = true) ∧
    (regFind (stopStream ⟨[("cam1", ⟨some 42, false, "rtsp://cam", 0, 0, true⟩)], false⟩
        [⟨"cam1", "rtsp://cam", true, true, some 42, 0⟩] "cam1" 5 true).registry "cam1" =
      some ⟨"cam1", "rtsp://cam", true, false, none, 5⟩) := by
  refine ⟨?_, ?_, ?_⟩
  · exact (C7_stop_semantics aliveAlways ⟨[], false⟩
      [⟨"cam1", "rtsp://cam", true, true, some 42, 0⟩] "cam1" 5 true).1 rfl
  · exact ((C7_stop_semantics aliveAlways
      ⟨[("cam1", ⟨some 42, false, "rtsp://cam", 0, 0, true⟩)], false⟩
      [⟨"cam1", "rtsp://cam", true, true, some 42, 0⟩] "cam1" 5 true).2
      ⟨some 42, false, "rtsp://cam", 0, 0, true⟩ rfl).1
  · exact ((C7_stop_semantics aliveAlways
      ⟨[("cam1", ⟨some 42, false, "rtsp://cam", 0, 0, true⟩)], false⟩
      [⟨"cam1", "rtsp://cam", true, true, some 42, 0⟩] "cam1" 5 true).2
      ⟨some 42, false, "rtsp://cam", 0, 0, true⟩ rfl).2.2.2.2 rfl
      ⟨"cam1", "rtsp://cam", true, true, some 42, 0⟩ rfl

/-- The `stopStream` state keeps the shutdown flag unchanged. -/
theorem stopStream_flag (st : ManagerState) (reg : Registry) (n : String)
    (now : Nat) (dbOk : Bool) :
    (stopStream st reg n now dbOk).state.isShuttingDown = st.isShuttingDown := by
  cases h : tableGet st.processes n <;> simp [stopStream, h]

/-- The `stopAll` loop keeps the shutdown flag of its accumulator. -/
theorem stopAllFold_flag (now : Nat) (dbOk : Bool) (names : List String)
    (acc : ManagerState × Registry) :
    ((names.foldl (stopAllStep now dbOk) acc).1).isShuttingDown =
      acc.1.isShuttingDown := by
  induction names generalizing acc with
  | nil => rfl
  | cons n rest ih =>
    rw [List.foldl_cons, ih]
    exact stopStream_flag acc.1 acc.2 n now dbOk

/-- C8: `stopAll` sets the global shutdown flag before anything else, and
afterwards the live-job table is empty, `getActiveStreams` returns the
empty list, and — because the flag is set — no exit handler run against the
resulting state schedules an auto-restart. -/
theorem C8_stopAll_shutdown_and_empty :
    ∀ (alive : Nat → Bool) (st : ManagerState) (reg : Registry) (now : Nat)
      (dbOk : Bool),
      (stopAll st reg now dbOk).1.isShuttingDown = true ∧
      (stopAll st reg now dbOk).1.processes = [] ∧
      (getActiveStreams alive (stopAll st reg now dbOk).1).1 = [] ∧
      (∀ (cfg : Config) (alive2 : Nat → Bool) (name : String)
          (info : ProcessInfo) (reg2 : Registry) (dbOk2 : Bool)
          (pid2 : Option Nat) (now2 : Nat),
        (handleExit cfg alive2 (stopAll st reg now dbOk).1 name info reg2
          dbOk2 pid2 now2).restartScheduled = false) := by
  intro alive st reg now dbOk
  have hproc : (stopAll st reg now dbOk).1.processes = [] := by
    rw [stopAll]
    by_cases h : st.processes.isEmpty = true
    · rw [if_pos h]
      exact List.isEmpty_iff.1 h
    · rw [if_neg h]
  have hflag : (stopAll st reg now dbOk).1.isShuttingDown = true := by
    rw [stopAll]
    by_cases h : st.processes.isEmpty = true
    · rw [if_pos h]
    · rw [if_neg h]
      exact stopAllFold_flag now dbOk _ ({ st with isShuttingDown := true }, reg)
  refine ⟨hflag, hproc, ?_, ?_⟩
  · rw [getActiveStreams_eq, hproc]
    rfl
  · intro cfg alive2 name info reg2 dbOk2 pid2 now2
    simp [handleExit, hflag]

/-- Unfolding lemma for `startDedup` once the looked-up entry is known. -/
theorem startDedup_eq {st : ManagerState} {name : String} {info : ProcessInfo}
    (cfg : Config) (alive : Nat → Bool)
    (hget : tableGet st.processes name = some info) :
    startDedup cfg alive st name =
      (match info.pid with
       | some p =>
         if (p != 0) = true then
           if alive p = true then (DedupResult.existing (getPublicUrl cfg name), st)
           else (DedupResult.proceed,
             { st with processes := tableDelete st.processes name })
         else (DedupResult.proceed, st)
       | none => (DedupResult.proceed, st)) := by
  rw [startDedup, hget]

/-- Unfolding lemma for `startDedup` when the name has no entry. -/
theorem startDedup_no_entry {st : ManagerState} {name : String}
    (cfg : Config) (alive : Nat → Bool)
    (hget : tableGet st.processes name = none) :
    startDedup cfg alive st name = (DedupResult.proceed, st) := by
  rw [startDedup, hget]

/-- Unfolding lemma for `startDedup` with a recorded pid. -/
theorem startDedup_eq_some {st : ManagerState} {name : String}
    {info : ProcessInfo} {p : Nat} (cfg : Config) (alive : Nat → Bool)
    (hget : tableGet st.processes name = some info) (hpid : info.pid = some p) :
    startDedup cfg alive st name =
      (if (p != 0) = true then
        if alive p = true then (DedupResult.existing (getPublicUrl cfg name), st)
        else (DedupResult.proceed,
          { st with processes := tableDelete st.processes name })
      else (DedupResult.proceed, st)) := by
  rw [startDedup_eq cfg alive hget, hpid]

/-- Unfolding lemma for `startDedup` with an entry that has no pid. -/
theorem startDedup_eq_nopid {st : ManagerState} {name : String}
    {info : ProcessInfo} (cfg : Config) (alive : Nat → Bool)
    (hget : tableGet st.processes name = some info) (hpid : info.pid = none) :
    startDedup cfg alive st name = (DedupResult.proceed, st) := by
  rw [startDedup_eq cfg alive hget, hpid]

/-- `startDedup` touches no table entry other than its own name. -/
theorem startDedup_table_other (cfg : Config) (alive : Nat → Bool)
    (st : ManagerState) (n : String) {m : String} (h : m ≠ n) :
    tableGet (startDedup cfg alive st n).2.processes m = tableGet st.processes m := by
  cases hg : tableGet st.processes n with
  | none => rw [startDedup_no_entry cfg alive hg]
  | some info =>
    cases hp : info.pid with
    | none => rw [startDedup_eq_nopid cfg alive hg hp]
    | some p =>
      rw [startDedup_eq_some cfg alive hg hp]
      by_cases h0 : (p != 0) = true
      · rw [if_pos h0]
        by_cases ha : alive p = true
        · rw [if_pos ha]
        · rw [if_neg ha]
          exact tableGet_tableDelete_ne _ h
      · rw [if_neg h0]

/-- The synchronous `startStream` effect touches no entry of another name. -/
theorem startStreamSync_table_other (cfg : Config) (alive : Nat → Bool)
    (st : ManagerState) (src n : String) (pid2 : Option Nat) (now : Nat)
    {m : String} (h : m ≠ n) :
    tableGet (startStreamSync cfg alive st src n pid2 now).2.processes m =
      tableGet st.processes m := by
  have hded := startDedup_table_other cfg alive st n h
  rw [startStreamSync]
  cases hd : startDedup cfg alive st n with
  | mk fst snd =>
    rw [hd] at hded
    cases fst with
    | existing url => exact hded
    | proceed =>
      calc tableGet (tableSet snd.processes n (spawnInfo pid2 src now)) m
          = tableGet snd.processes m := tableGet_tableSet_ne _ _ h
        _ = tableGet st.processes m := hded

/-- The full `startStream` effect touches no entry of another name. -/
theorem startStreamFull_table_other (cfg : Config) (alive : Nat → Bool)
    (st : ManagerState) (src n : String) (pid2 : Option Nat) (now : Nat)
    {m : String} (h : m ≠ n) :
    tableGet (startStreamFull cfg alive st src n pid2 now).2.processes m =
      tableGet st.processes m := by
  have hsync := startStreamSync_table_other cfg alive st src n pid2 now h
  rw [startStreamFull]
  cases hs : startStreamSync cfg alive st src n pid2 now with
  | mk fst snd =>
    rw [hs] at hsync
    cases fst with
    | some url => exact hsync
    | none =>
      show tableGet
          (if pidTruthy pid2 = true then (some (getPublicUrl cfg n), snd)
            else (none, { snd with processes := tableDelete snd.processes n })).2.processes m =
        tableGet st.processes m
      by_cases hp : pidTruthy pid2 = true
      · rw [if_pos hp]
        exact hsync
      · rw [if_neg hp]
        calc tableGet (tableDelete snd.processes n) m
            = tableGet snd.processes m := tableGet_tableDelete_ne _ h
          _ = tableGet st.processes m := hsync

/-- The liveness probe touches no entry of another name. -/
theorem isStreamRunning_table_other (alive : Nat → Bool) (st : ManagerState)
    (n : String) {m : String} (h : m ≠ n) :
    tableGet (isStreamRunning alive st n).2.processes m = tableGet st.processes m := by
  cases hg : tableGet st.processes n with
  | none => rw [isStreamRunning_no_entry alive hg]
  | some info =>
    cases hp : info.pid with
    | none => rw [isStreamRunning_eq_none alive hg hp]
    | some p =>
      rw [isStreamRunning_eq_some alive hg hp]
      by_cases h0 : (p != 0) = true
      · rw [if_pos h0]
        by_cases ha : alive p = true
        · rw [if_pos ha]
        · rw [if_neg ha]
          exact tableGet_tableDelete_ne _ h
      · rw [if_neg h0]

/-- One monitor iteration touches no table entry of another name. -/
theorem monitorStep_table_other (cfg : Config) (alive : Nat → Bool)
    (spawnPid : String → Option Nat) (now : Nat)
    (acc : ManagerState × Registry × List MonAction) (cam : CameraRecord)
    {m : String} (h : m ≠ cam.streamName) :
    tableGet (monitorStep cfg alive spawnPid now acc cam).1.processes m =
      tableGet acc.1.processes m := by
  have hrun := isStreamRunning_table_other alive acc.1 cam.streamName h
  have hfull := startStreamFull_table_other cfg alive
    (isStreamRunning alive acc.1 cam.streamName).2 cam.rtspUrl cam.streamName
    (spawnPid cam.streamName) now h
  simp only [monitorStep]
  split
  · exact hfull.trans hrun
  · split
    · exact hrun
    · exact hrun

/-- The whole camera loop touches no table entry whose name is outside the
visited set. -/
theorem monitorFold_table_other (cfg : Config) (alive : Nat → Bool)
    (spawnPid : String → Option Nat) (now : Nat) (cams : List CameraRecord)
    (acc : ManagerState × Registry × List MonAction) {m : String}
    (h : ∀ c ∈ cams, c.streamName ≠ m) :
    tableGet ((cams.foldl (monitorStep cfg alive spawnPid now) acc).1.processes) m =
      tableGet acc.1.processes m := by
  induction cams generalizing acc with
  | nil => rfl
  | cons c rest ih =>
    rw [List.foldl_cons,
      ih _ (fun c' hc' => h c' (List.mem_cons_of_mem _ hc'))]
    exact monitorStep_table_other cfg alive spawnPid now acc c
      (Ne.symm (h c (List.mem_cons_self _ _)))

/-- One monitor iteration never records a stop action. -/
theorem monitorStep_no_stop (cfg : Config) (alive : Nat → Bool)
    (spawnPid : String → Option Nat) (now : Nat)
    (acc : ManagerState × Registry × List MonAction) (cam : CameraRecord)
    (nm : String) (h : MonAction.stopped nm ∉ acc.2.2) :
    MonAction.stopped nm ∉ (monitorStep cfg alive spawnPid now acc cam).2.2 := by
  simp only [monitorStep]
  split
  · intro hmem
    rcases List.mem_append.1 hmem with h1 | h1
    · exact h h1
    · simp at h1
  · split
    · exact h
    · exact h

/-- The whole camera loop never records a stop action. -/
theorem monitorFold_no_stop (cfg : Config) (alive : Nat → Bool)
    (spawnPid : String → Option Nat) (now : Nat) (cams : List CameraRecord)
    (acc : ManagerState × Registry × List MonAction) (nm : String)
    (h : MonAction.stopped nm ∉ acc.2.2) :
    MonAction.stopped nm ∉
      (cams.foldl (monitorStep cfg alive spawnPid now) acc).2.2 := by
  induction cams generalizing acc with
  | nil => exact h
  | cons c rest ih =>
    rw [List.foldl_cons]
    exact ih _ (monitorStep_no_stop cfg alive spawnPid now acc c nm h)

/-- C9: the periodic convergence check never stops a running stream whose
registry record has `active = false` — it issues no stop call at all, and
the live-job entry of every such record is left untouched (the loop only
ever visits the `active: true` snapshot, so deactivation remains the API
layer's responsibility). -/
theorem C9_convergence_never_stops_inactive :
    ∀ (cfg : Config) (alive : Nat → Bool) (spawnPid : String → Option Nat)
      (now : Nat) (st : ManagerState) (reg : Registry) (r : CameraRecord)
      (nm : String),
      r ∈ reg → r.active = false →
      (reg.map CameraRecord.streamName).Nodup →
      (MonAction.stopped nm ∉ (checkAllStreams cfg alive spawnPid now st reg).2.2) ∧
      tableGet (checkAllStreams cfg alive spawnPid now st reg).1.processes r.streamName =
        tableGet st.processes r.streamName := by
  intro cfg alive spawnPid now st reg r nm hr hact hnd
  constructor
  · rw [checkAllStreams]
    exact monitorFold_no_stop cfg alive spawnPid now _ _ nm (by simp)
  · rw [checkAllStreams]
    refine monitorFold_table_other cfg alive spawnPid now _ _ ?_
    intro c hc heq
    rcases List.mem_filter.1 hc with ⟨hcin, hcact⟩
    have hcr : c = r := List.inj_on_of_nodup_map hnd hcin hr heq
    rw [hcr, hact] at hcact
    cases hcact

/-- Witness for C9: with one inactive registered camera and its stream
still live in the table, the check issues no stop and the entry is
untouched. -/
theorem C9_convergence_witness :
    (MonAction.stopped "cam1" ∉
      (checkAllStreams demoCfg aliveAlways (fun _ => some 7) 5
        ⟨[("cam1", ⟨some 42, false, "rtsp://cam", 0, 0, true⟩)], false⟩
        [⟨"cam1", "rtsp://cam", false, true, some 42, 0⟩]).2.2) ∧
    (tableGet
        (checkAllStreams demoCfg aliveAlways (fun _ => some 7) 5
          ⟨[("cam1", ⟨some 42, false, "rtsp://cam", 0, 0, true⟩)], false⟩
          [⟨"cam1", "rtsp://cam", false, true, some 42, 0⟩]).1.processes "cam1" =
      some ⟨some 42, false, "rtsp://cam", 0, 0, true⟩) := by
  constructor
  · exact (C9_convergence_never_stops_inactive demoCfg aliveAlways (fun _ => some 7) 5
      ⟨[("cam1", ⟨some 42, false, "rtsp://cam", 0, 0, true⟩)], false⟩
      [⟨"cam1", "rtsp://cam", false, true, some 42, 0⟩]
      ⟨"cam1", "rtsp://cam", false, true, some 42, 0⟩ "cam1"
      (List.mem_singleton.2 rfl) rfl (List.nodup_singleton "cam1")).1
  · exact (C9_convergence_never_stops_inactive demoCfg aliveAlways (fun _ => some 7) 5
      ⟨[("cam1", ⟨some 42, false, "rtsp://cam", 0, 0, true⟩)], false⟩
      [⟨"cam1", "rtsp://cam", false, true, some 42, 0⟩]
      ⟨"cam1", "rtsp://cam", false, true, some 42, 0⟩ "cam1"
      (List.mem_singleton.2 rfl) rfl (List.nodup_singleton "cam1")).2

end Thabir
